import Mathlib

/-!
Shallow embedding of the nextest output-line classifier
(`src/analysis/nextest/mod.rs`) of the bacon repository.

A terminal output line is a sequence of styled runs (`TString`: a CSI style
tag plus raw text, `TLine`: the ordered runs of one line).  The classifier
`analyze_line` tries five tool-specific shape classifiers in order
(`title_key`, `as_test_result`, `is_canceling`, `is_error_test_run_failed`,
and two plain-text patterns) and otherwise delegates to the generic
`standard::analyze_line`, modelled here as an explicit function parameter.

Rust strings are modelled as Lean `String`; the character-class functions
(`str::trim`, regex `\s`, regex `\d`) are modelled over `List Char` with
ASCII-faithful character predicates (`Char.isWhitespace`, `Char.isDigit`);
every text the classifier compares against is ASCII, where these agree with
Rust's Unicode-aware versions.
-/

set_option autoImplicit false

namespace Nextest

/-- `const CSI_TITLE: &str = "\u{1b}[35;1m"` -/
def CSI_TITLE : String := "\x1b[35;1m"

/-- `const CSI_PASS: &str = "\u{1b}[32;1m"` -/
def CSI_PASS : String := "\x1b[32;1m"

/-- `const CSI_ERROR: &str = "\u{1b}[31;1m"` -/
def CSI_ERROR : String := "\x1b[31;1m"

/-- Modelled from the spec: a StyledRun (`TString`, defined outside this
fragment): a style tag `csi` (empty string = unstyled) and raw text. -/
structure TString where
  csi : String
  raw : String
deriving DecidableEq, Repr

/-- Modelled from the spec: a StyledLine (`TLine`, defined outside this
fragment): the ordered runs of one output line. -/
structure TLine where
  strings : List TString
deriving DecidableEq, Repr

/-- Modelled from the spec: the wrapper around a line's content
(`CommandOutputLine`, defined outside this fragment); only its `content`
field is relevant to classification. -/
structure CommandOutputLine where
  content : TLine
deriving DecidableEq, Repr

/-- Modelled from the spec: the `kind` of a LineClassification:
`{Normal, FailureTitle, TestResult, SectionEnd, Garbage, Delegated}`
(the `Delegated` payload, the generic classifier's own kind, is opaque). -/
inductive LineKind where
  | Normal
  | FailureTitle
  | TestResult
  | SectionEnd
  | Garbage
  | Delegated (g : String)
deriving DecidableEq, Repr

/-- Modelled from the spec: a LineClassification (`LineAnalysis`, defined
outside this fragment): a kind, an optional key, an optional outcome. -/
structure LineAnalysis where
  kind : LineKind
  key : Option String
  outcome : Option Bool
deriving DecidableEq, Repr

/-- Modelled from the spec: `LineAnalysis::title_key(Kind::TestFail, key)`
builds the FailureTitle classification carrying the extracted key. -/
def LineAnalysis.title_key (key : String) : LineAnalysis :=
  { kind := .FailureTitle, key := some key, outcome := none }

/-- Modelled from the spec: `LineAnalysis::test_result(key, pass)` builds
the TestResult classification carrying the key and the pass/fail outcome. -/
def LineAnalysis.test_result (key : String) (pass : Bool) : LineAnalysis :=
  { kind := .TestResult, key := some key, outcome := some pass }

/-- Modelled from the spec: `LineAnalysis::of_type(t)` builds a
classification with no key and no outcome. -/
def LineAnalysis.of_type (t : LineKind) : LineAnalysis :=
  { kind := t, key := none, outcome := none }

/-- Strip a literal from the front of a character list; `some rest` when the
list starts with the literal (regex-anchor `^lit`). -/
def stripL : List Char → List Char → Option (List Char)
  | [], cs => some cs
  | _ :: _, [] => none
  | p :: ps, c :: cs => if c = p then stripL ps cs else none

/-- Character model of Rust `str::trim` (drop whitespace at both ends). -/
def trimChars (cs : List Char) : List Char :=
  ((cs.dropWhile Char.isWhitespace).reverse.dropWhile Char.isWhitespace).reverse

/-- String model of Rust `str::trim`. -/
def trimS (s : String) : String :=
  ⟨trimChars s.data⟩

/-- Model of `regex_is_match!(r"^STD(OUT|ERR):\s*$", s)`: the whole string
is `STDOUT:` or `STDERR:` followed by whitespace only. -/
def stdOutErr (s : String) : Bool :=
  match stripL "STDOUT:".data s.data with
  | some rest => rest.all Char.isWhitespace
  | none =>
    match stripL "STDERR:".data s.data with
    | some rest => rest.all Char.isWhitespace
    | none => false

/-- Model of `regex_is_match!(r"^running \d+ tests?$", s)`: `running `,
then one or more digits, then ` test` or ` tests`, end of string. -/
def runningMatch (s : String) : Bool :=
  match stripL "running ".data s.data with
  | none => false
  | some rest =>
    let ds := rest.takeWhile Char.isDigit
    let r2 := rest.dropWhile Char.isDigit
    decide (ds ≠ []) && (r2 = " test".data || r2 = " tests".data)

/-- Modelled from the spec: `TLine::if_unstyled` (defined outside this
fragment) returns the plain text of a line that has no styling at all
(every run's style tag empty), and nothing otherwise. -/
def TLine.if_unstyled (l : TLine) : Option String :=
  if l.strings.all (fun s => s.csi = "") then
    some (String.join (l.strings.map (·.raw)))
  else none

/-- The `for s in &mut strings { ... }` loop of
`extract_key_after_crate_name`: skip empty-style runs, stop at a run whose
raw text is `" ---"` or whose style is `CSI_TITLE` (consumed, not
appended), otherwise append the run's text.  Returns the accumulated key
and the runs remaining after the loop. -/
def keyLoop : List TString → String → String × List TString
  | [], key => (key, [])
  | s :: rest, key =>
    if s.csi = "" then keyLoop rest key
    else if s.raw = " ---" ∨ s.csi = CSI_TITLE then (key, rest)
    else keyLoop rest (key ++ s.raw)

/-- `fn extract_key_after_crate_name(mut strings: Iter<TString>) -> Option<String>`:
skip the crate-name run and the blank run, run the key loop, fail if runs
remain after the loop or the key is empty. -/
def extract_key_after_crate_name (strings : List TString) : Option String :=
  match keyLoop (strings.drop 2) "" with
  | (_, _ :: _) => none
  | (key, []) => if key = "" then none else some key

/-- `fn title_key(content: &TLine) -> Option<String>`: needs two runs, the
first run's raw text exactly `"--- "`, the second matching
`^STD(OUT|ERR):\s*$`; then extracts the key from the remaining runs. -/
def title_key (content : TLine) : Option String :=
  match content.strings with
  | first :: second :: rest =>
    if first.raw ≠ "--- " then none
    else if stdOutErr second.raw = false then none
    else extract_key_after_crate_name rest
  | _ => none

/-- `fn as_test_result(content: &TLine) -> Option<(String, bool)>`: the
first run's (style, trimmed text) must be `(CSI_PASS, "PASS")` or
`(CSI_ERROR, "FAIL")`; a second run must exist with empty style (the
duration, not otherwise validated); then the key is extracted. -/
def as_test_result (content : TLine) : Option (String × Bool) :=
  match content.strings with
  | [] => none
  | first :: rest =>
    let passOpt : Option Bool :=
      if first.csi = CSI_PASS ∧ trimS first.raw = "PASS" then some true
      else if first.csi = CSI_ERROR ∧ trimS first.raw = "FAIL" then some false
      else none
    match passOpt with
    | none => none
    | some pass =>
      match rest with
      | [] => none
      | second :: rest2 =>
        if second.csi = "" then
          match extract_key_after_crate_name rest2 with
          | some key => some (key, pass)
          | none => none
        else none

/-- `fn is_error_test_run_failed(content: &TLine) -> bool`: exactly two
runs, first error-styled with trimmed text `"error"`, second with trimmed
text `": test run failed"`. -/
def is_error_test_run_failed (content : TLine) : Bool :=
  match content.strings with
  | [first, second] =>
    first.csi = CSI_ERROR && trimS first.raw = "error"
      && trimS second.raw = ": test run failed"
  | _ => false

/-- `fn is_canceling(content: &TLine) -> bool`: the first run is
error-styled with trimmed text `"Canceling"`. -/
def is_canceling (content : TLine) : Bool :=
  match content.strings with
  | [] => false
  | first :: _ => first.csi = CSI_ERROR && trimS first.raw = "Canceling"

/-- `pub fn analyze_line(cmd_line: &CommandOutputLine) -> LineAnalysis`:
the dispatcher, parameterised over the external generic classifier
`standard::analyze_line` (out of scope in the source). -/
def analyze_line (standard_analyze_line : CommandOutputLine → LineAnalysis)
    (cmd_line : CommandOutputLine) : LineAnalysis :=
  let content := cmd_line.content
  match title_key content with
  | some key => LineAnalysis.title_key key
  | none =>
    match as_test_result content with
    | some (key, pass) => LineAnalysis.test_result key pass
    | none =>
      if is_canceling content then LineAnalysis.of_type .SectionEnd
      else if is_error_test_run_failed content then LineAnalysis.of_type .Garbage
      else
        match content.if_unstyled with
        | some c =>
          if runningMatch c then LineAnalysis.of_type .Garbage
          else if c = "------------" then LineAnalysis.of_type .SectionEnd
          else standard_analyze_line cmd_line
        | none => standard_analyze_line cmd_line

/-! ### Helper notions and lemmas -/

/-- A run that the key loop can traverse without terminating: either it is
unstyled (skipped) or it is styled but is not the closing marker. -/
def isKeyOk (s : TString) : Prop :=
  s.csi = "" ∨ (s.raw ≠ " ---" ∧ s.csi ≠ CSI_TITLE)

instance (s : TString) : Decidable (isKeyOk s) := by
  unfold isKeyOk; infer_instance

/-- The text the key loop accumulates over a run list: the concatenation of
the raw texts of the styled (non-empty style tag) runs. -/
def keyText : List TString → String
  | [] => ""
  | s :: rest => (if s.csi = "" then "" else s.raw) ++ keyText rest

lemma string_data_append (a b : String) : (a ++ b).data = a.data ++ b.data := rfl

lemma string_append_empty (a : String) : a ++ "" = a := by
  cases a with
  | mk d => show String.mk (d ++ []) = String.mk d
            rw [List.append_nil]

lemma string_empty_append (a : String) : "" ++ a = a := by
  cases a with
  | mk d => show String.mk ([] ++ d) = String.mk d
            rw [List.nil_append]

lemma string_append_assoc (a b c : String) : a ++ b ++ c = a ++ (b ++ c) := by
  cases a with
  | mk da =>
    cases b with
    | mk db =>
      cases c with
      | mk dc => show String.mk (da ++ db ++ dc) = String.mk (da ++ (db ++ dc))
                 rw [List.append_assoc]

lemma string_append_ne_empty_left (a b : String) (h : a ≠ "") : a ++ b ≠ "" := by
  cases a with
  | mk da =>
    cases b with
    | mk db =>
      intro hc
      have hd : da ++ db = [] := congrArg String.data hc
      rcases List.append_eq_nil.mp hd with ⟨h1, _⟩
      exact h (by rw [h1])

lemma string_append_ne_empty_right (a b : String) (h : b ≠ "") : a ++ b ≠ "" := by
  cases a with
  | mk da =>
    cases b with
    | mk db =>
      intro hc
      have hd : da ++ db = [] := congrArg String.data hc
      rcases List.append_eq_nil.mp hd with ⟨_, h2⟩
      exact h (by rw [h2])

/-- Traversing traversable runs only accumulates their styled text. -/
lemma keyLoop_append (mid : List TString) (hmid : ∀ s ∈ mid, isKeyOk s)
    (tail : List TString) (acc : String) :
    keyLoop (mid ++ tail) acc = keyLoop tail (acc ++ keyText mid) := by
  induction mid generalizing acc with
  | nil => rw [keyText, string_append_empty, List.nil_append]
  | cons t rest ih =>
    have ht := hmid t (by simp)
    have hrest : ∀ s ∈ rest, isKeyOk s := fun s hs => hmid s (by simp [hs])
    by_cases hcsi : t.csi = ""
    · rw [List.cons_append, keyLoop, if_pos hcsi, ih hrest, keyText, if_pos hcsi,
        string_empty_append]
    · rcases ht with h | ⟨hraw, htitle⟩
      · exact absurd h hcsi
      · rw [List.cons_append, keyLoop, if_neg hcsi,
          if_neg (by simp [hraw, htitle]), ih hrest, keyText, if_neg hcsi,
          string_append_assoc]

/-- The closing marker terminates the loop with nothing after it, whether
it is styled (explicit break) or unstyled (skipped, list exhausted). -/
lemma keyLoop_closing (closing : TString)
    (hc : closing.raw = " ---" ∨ closing.csi = CSI_TITLE) (acc : String) :
    keyLoop [closing] acc = (acc, []) := by
  by_cases hcsi : closing.csi = ""
  · rw [keyLoop, if_pos hcsi, keyLoop]
  · rw [keyLoop, if_neg hcsi, if_pos hc]

/-- A styled closing marker breaks the loop, leaving the tail unconsumed. -/
lemma keyLoop_closing_cons (closing : TString) (hcsi : closing.csi ≠ "")
    (hc : closing.raw = " ---" ∨ closing.csi = CSI_TITLE)
    (tail : List TString) (acc : String) :
    keyLoop (closing :: tail) acc = (acc, tail) := by
  rw [keyLoop, if_neg hcsi, if_pos hc]

/-- Over unstyled runs the loop skips everything. -/
lemma keyLoop_all_unstyled (ss : List TString) (h : ∀ s ∈ ss, s.csi = "")
    (acc : String) : keyLoop ss acc = (acc, []) := by
  induction ss with
  | nil => rw [keyLoop]
  | cons t rest ih =>
    rw [keyLoop, if_pos (h t (by simp))]
    exact ih (fun s hs => h s (by simp [hs]))

/-- A successfully extracted key is never empty. -/
lemma extract_key_some_ne_empty (ss : List TString) (k : String)
    (h : extract_key_after_crate_name ss = some k) : k ≠ "" := by
  unfold extract_key_after_crate_name at h
  split at h
  · exact absurd h (by simp)
  · split at h
    · exact absurd h (by simp)
    · injection h with hkk
      subst hkk
      assumption

/-- If the key exists, `keyText` of traversable runs followed by the closing
marker computes the extraction result. -/
lemma extract_key_shape (pkg sep closing : TString) (mid : List TString)
    (hmid : ∀ s ∈ mid, isKeyOk s)
    (hc : closing.raw = " ---" ∨ closing.csi = CSI_TITLE) :
    extract_key_after_crate_name (pkg :: sep :: (mid ++ [closing])) =
      if keyText mid = "" then none else some (keyText mid) := by
  unfold extract_key_after_crate_name
  have hdrop : (pkg :: sep :: (mid ++ [closing])).drop 2 = mid ++ [closing] := rfl
  rw [hdrop, keyLoop_append mid hmid [closing] "", keyLoop_closing closing hc,
    string_empty_append]

/-- A traversed run with a style tag and text contributes to the key, so
the key is non-empty. -/
lemma keyText_ne_empty (mid : List TString) (s : TString) (hs : s ∈ mid)
    (h1 : s.csi ≠ "") (h2 : s.raw ≠ "") : keyText mid ≠ "" := by
  induction mid with
  | nil => cases hs
  | cons t rest ih =>
    rcases List.mem_cons.mp hs with rfl | hmem
    · rw [keyText, if_neg h1]
      exact string_append_ne_empty_left _ _ h2
    · rw [keyText]
      exact string_append_ne_empty_right _ _ (ih hmem)

/-- The title classifier declines when the first run's text is not `"--- "`. -/
lemma title_key_decline_first (first : TString) (rest : List TString)
    (h : first.raw ≠ "--- ") : title_key ⟨first :: rest⟩ = none := by
  cases rest with
  | nil => rfl
  | cons b r => simp [title_key, h]

/-- The test-result classifier declines when the first run is neither the
PASS nor the FAIL marker. -/
lemma as_test_result_decline_first (first : TString) (rest : List TString)
    (h1 : ¬(first.csi = CSI_PASS ∧ trimS first.raw = "PASS"))
    (h2 : ¬(first.csi = CSI_ERROR ∧ trimS first.raw = "FAIL")) :
    as_test_result ⟨first :: rest⟩ = none := by
  simp only [as_test_result, if_neg h1, if_neg h2]

/-- A simple concrete stand-in for the external generic classifier. -/
def stdFallback : CommandOutputLine → LineAnalysis :=
  fun _ => LineAnalysis.of_type .Normal

/-! ### Claim theorems -/

/-- C1: every well-formed title line `--- STDOUT: <pkg> <key> ---` or
`--- STDERR: <pkg> <key> ---` — first run `"--- "`, second run matching
`STD(OUT|ERR):` plus trailing whitespace, then a package run, a separator
run, key runs (each either unstyled or styled and not a closing marker, at
least one styled with text), and a closing marker — is classified
`kind=FailureTitle` with `key` the in-order concatenation of the styled key
runs' texts.  No hypothesis constrains the style tags of the non-key runs
(first, second, package, separator; the closing marker only disjunctively),
so the result is unchanged by which of them carry an empty style tag. -/
theorem C1_title_line_classified (f : CommandOutputLine → LineAnalysis)
    (first second pkg sep closing : TString) (mid : List TString)
    (h1 : first.raw = "--- ")
    (h2 : stdOutErr second.raw = true)
    (hmid : ∀ s ∈ mid, isKeyOk s)
    (hkey : ∃ s ∈ mid, s.csi ≠ "" ∧ s.raw ≠ "")
    (hclose : closing.raw = " ---" ∨ closing.csi = CSI_TITLE) :
    analyze_line f ⟨⟨first :: second :: pkg :: sep :: (mid ++ [closing])⟩⟩ =
      { kind := .FailureTitle, key := some (keyText mid), outcome := none } := by
  rcases hkey with ⟨s, hs, hscsi, hsraw⟩
  have hkt : keyText mid ≠ "" := keyText_ne_empty mid s hs hscsi hsraw
  have hex : extract_key_after_crate_name (pkg :: sep :: (mid ++ [closing])) =
      some (keyText mid) := by
    rw [extract_key_shape pkg sep closing mid hmid hclose, if_neg hkt]
  have htk : title_key ⟨first :: second :: pkg :: sep :: (mid ++ [closing])⟩ =
      some (keyText mid) := by
    simp [title_key, h1, h2, hex]
  simp [analyze_line, htk, LineAnalysis.title_key]

theorem C1_witness :
    analyze_line stdFallback
      ⟨⟨[⟨CSI_TITLE, "--- "⟩, ⟨CSI_TITLE, "STDOUT:              "⟩,
         ⟨CSI_TITLE, "bacon-test"⟩, ⟨"", " "⟩, ⟨"\x1b[36m", "tests"⟩,
         ⟨"\x1b[36m", "::"⟩, ⟨"\x1b[34;1m", "failing_test3"⟩,
         ⟨CSI_TITLE, " ---"⟩]⟩⟩ =
      { kind := .FailureTitle, key := some "tests::failing_test3",
        outcome := none } :=
  C1_title_line_classified stdFallback ⟨CSI_TITLE, "--- "⟩
    ⟨CSI_TITLE, "STDOUT:              "⟩ ⟨CSI_TITLE, "bacon-test"⟩ ⟨"", " "⟩
    ⟨CSI_TITLE, " ---"⟩
    [⟨"\x1b[36m", "tests"⟩, ⟨"\x1b[36m", "::"⟩, ⟨"\x1b[34;1m", "failing_test3"⟩]
    rfl (by decide) (by decide) (by decide) (Or.inl rfl)

/-- C3 counterexample: a line whose second run is `" STDOUT:"` — its
trimmed text matches the `STD(OUT|ERR):` pattern, and key extraction on the
remaining runs would succeed — is nevertheless declined by the title
classifier: the anchored regex `^STD(OUT|ERR):\s*$` rejects leading
whitespace. -/
theorem C3_counterexample :
    trimS " STDOUT:" = "STDOUT:"
    ∧ stdOutErr (trimS " STDOUT:") = true
    ∧ extract_key_after_crate_name
        [⟨CSI_TITLE, "pkg"⟩, ⟨"", " "⟩, ⟨"\x1b[36m", "tests::a"⟩,
         ⟨CSI_TITLE, " ---"⟩] = some "tests::a"
    ∧ title_key ⟨[⟨CSI_TITLE, "--- "⟩, ⟨CSI_TITLE, " STDOUT:"⟩,
        ⟨CSI_TITLE, "pkg"⟩, ⟨"", " "⟩, ⟨"\x1b[36m", "tests::a"⟩,
        ⟨CSI_TITLE, " ---"⟩]⟩ = none := by
  decide

/-- C3 (amended): the title classifier proceeds to key extraction for every
line with at least two runs whose first run's text equals exactly `"--- "`
and whose second run's text matches `STD(OUT|ERR):` at its very start
(optionally followed by trailing whitespace); leading whitespace in the
second run's text causes a decline. -/
theorem C3_title_shape (first second : TString) (rest : List TString)
    (h1 : first.raw = "--- ") (h2 : stdOutErr second.raw = true) :
    title_key ⟨first :: second :: rest⟩ = extract_key_after_crate_name rest := by
  simp [title_key, h1, h2]

theorem C3_witness :
    title_key ⟨[⟨CSI_TITLE, "--- "⟩, ⟨CSI_TITLE, "STDOUT:"⟩, ⟨CSI_TITLE, "pkg"⟩,
        ⟨"", " "⟩, ⟨"\x1b[36m", "k"⟩, ⟨CSI_TITLE, " ---"⟩]⟩ =
      extract_key_after_crate_name
        [⟨CSI_TITLE, "pkg"⟩, ⟨"", " "⟩, ⟨"\x1b[36m", "k"⟩, ⟨CSI_TITLE, " ---"⟩] :=
  C3_title_shape ⟨CSI_TITLE, "--- "⟩ ⟨CSI_TITLE, "STDOUT:"⟩
    [⟨CSI_TITLE, "pkg"⟩, ⟨"", " "⟩, ⟨"\x1b[36m", "k"⟩, ⟨CSI_TITLE, " ---"⟩]
    rfl (by decide)

/-- C4: on a line whose runs after package and separator are traversable
key runs followed by a styled closing marker, key extraction fails exactly
when runs remain after the closing marker or the accumulated key is empty,
and otherwise returns the concatenation of the styled key runs' texts; both
failures are the same silent decline (`none`), not an error. -/
theorem C4_extract_key_failures (pkg sep closing : TString)
    (mid tail : List TString)
    (hmid : ∀ s ∈ mid, isKeyOk s)
    (hcsi : closing.csi ≠ "")
    (hc : closing.raw = " ---" ∨ closing.csi = CSI_TITLE) :
    (tail ≠ [] →
      extract_key_after_crate_name (pkg :: sep :: (mid ++ closing :: tail)) = none)
    ∧ (keyText mid = "" →
      extract_key_after_crate_name (pkg :: sep :: (mid ++ closing :: tail)) = none)
    ∧ (keyText mid ≠ "" → tail = [] →
      extract_key_after_crate_name (pkg :: sep :: (mid ++ closing :: tail)) =
        some (keyText mid)) := by
  have hdrop : (pkg :: sep :: (mid ++ closing :: tail)).drop 2 =
      mid ++ closing :: tail := rfl
  have hloop : keyLoop (mid ++ closing :: tail) "" = (keyText mid, tail) := by
    rw [keyLoop_append mid hmid _ "", keyLoop_closing_cons closing hcsi hc,
      string_empty_append]
  refine ⟨fun ht => ?_, fun hk => ?_, fun hk ht => ?_⟩
  · unfold extract_key_after_crate_name
    rw [hdrop, hloop]
    cases tail with
    | nil => exact absurd rfl ht
    | cons a l => rfl
  · unfold extract_key_after_crate_name
    rw [hdrop, hloop]
    cases tail with
    | nil => exact if_pos hk
    | cons a l => rfl
  · subst ht
    unfold extract_key_after_crate_name
    rw [hdrop, hloop]
    exact if_neg hk

theorem C4_witness :
    extract_key_after_crate_name
      [⟨CSI_TITLE, "pkg"⟩, ⟨"", " "⟩, ⟨"\x1b[36m", "k"⟩, ⟨CSI_TITLE, " ---"⟩,
       ⟨"\x1b[36m", "junk"⟩] = none
    ∧ extract_key_after_crate_name
      [⟨CSI_TITLE, "pkg"⟩, ⟨"", " "⟩, ⟨"\x1b[36m", "k"⟩, ⟨CSI_TITLE, " ---"⟩] =
        some "k" :=
  ⟨(C4_extract_key_failures ⟨CSI_TITLE, "pkg"⟩ ⟨"", " "⟩ ⟨CSI_TITLE, " ---"⟩
      [⟨"\x1b[36m", "k"⟩] [⟨"\x1b[36m", "junk"⟩]
      (by decide) (by decide) (Or.inl rfl)).1 (by decide),
   (C4_extract_key_failures ⟨CSI_TITLE, "pkg"⟩ ⟨"", " "⟩ ⟨CSI_TITLE, " ---"⟩
      [⟨"\x1b[36m", "k"⟩] []
      (by decide) (by decide) (Or.inl rfl)).2.2 (by decide) rfl⟩

/-- C10: the title classifier never inspects the style tags of the runs
outside the key region: two lines agreeing on the raw texts of the first
four runs (title marker, STDOUT/STDERR marker, package, separator) and
sharing the remaining runs classify identically, whatever the style tags of
those four runs; and, concretely, the source test's STDERR title line
rendered entirely in the error style is recognised exactly like the
STDOUT title line rendered in the title style. -/
theorem C10_title_key_style_blind :
    (∀ (a b p s a2 b2 p2 s2 : TString) (rest : List TString),
      a.raw = a2.raw → b.raw = b2.raw → p.raw = p2.raw → s.raw = s2.raw →
      title_key ⟨a :: b :: p :: s :: rest⟩ =
        title_key ⟨a2 :: b2 :: p2 :: s2 :: rest⟩)
    ∧ (title_key ⟨[⟨CSI_ERROR, "--- "⟩, ⟨CSI_ERROR, "STDERR:              "⟩,
          ⟨CSI_TITLE, "bacon-test"⟩, ⟨"", " "⟩, ⟨"\x1b[36m", "tests"⟩,
          ⟨"\x1b[36m", "::"⟩, ⟨"\x1b[34;1m", "failing_test3"⟩,
          ⟨CSI_ERROR, " ---"⟩]⟩ =
        title_key ⟨[⟨CSI_TITLE, "--- "⟩, ⟨CSI_TITLE, "STDOUT:              "⟩,
          ⟨CSI_TITLE, "bacon-test"⟩, ⟨"", " "⟩, ⟨"\x1b[36m", "tests"⟩,
          ⟨"\x1b[36m", "::"⟩, ⟨"\x1b[34;1m", "failing_test3"⟩,
          ⟨CSI_TITLE, " ---"⟩]⟩
      ∧ title_key ⟨[⟨CSI_ERROR, "--- "⟩, ⟨CSI_ERROR, "STDERR:              "⟩,
          ⟨CSI_TITLE, "bacon-test"⟩, ⟨"", " "⟩, ⟨"\x1b[36m", "tests"⟩,
          ⟨"\x1b[36m", "::"⟩, ⟨"\x1b[34;1m", "failing_test3"⟩,
          ⟨CSI_ERROR, " ---"⟩]⟩ = some "tests::failing_test3") := by
  constructor
  · intro a b p s a2 b2 p2 s2 rest ha hb hp hs
    have he : extract_key_after_crate_name (p :: s :: rest) =
        extract_key_after_crate_name (p2 :: s2 :: rest) := rfl
    simp only [title_key, ha, hb, he]
  · exact ⟨by decide, by decide⟩

theorem C10_witness :
    title_key ⟨[⟨"", "--- "⟩, ⟨CSI_ERROR, "STDOUT:"⟩, ⟨"\x1b[1m", "pkg"⟩,
        ⟨CSI_PASS, " "⟩, ⟨"\x1b[36m", "k"⟩, ⟨CSI_TITLE, " ---"⟩]⟩ =
      title_key ⟨[⟨CSI_TITLE, "--- "⟩, ⟨"", "STDOUT:"⟩, ⟨"", "pkg"⟩,
        ⟨"", " "⟩, ⟨"\x1b[36m", "k"⟩, ⟨CSI_TITLE, " ---"⟩]⟩ :=
  C10_title_key_style_blind.1 ⟨"", "--- "⟩ ⟨CSI_ERROR, "STDOUT:"⟩
    ⟨"\x1b[1m", "pkg"⟩ ⟨CSI_PASS, " "⟩ ⟨CSI_TITLE, "--- "⟩ ⟨"", "STDOUT:"⟩
    ⟨"", "pkg"⟩ ⟨"", " "⟩ [⟨"\x1b[36m", "k"⟩, ⟨CSI_TITLE, " ---"⟩]
    rfl rfl rfl rfl

/-- A matching PASS/FAIL first run, an unstyled second run, and a
successful key extraction make the test-result classifier succeed. -/
lemma as_test_result_match (first second : TString) (rest2 : List TString)
    (pass : Bool)
    (hp : (first.csi = CSI_PASS ∧ trimS first.raw = "PASS" ∧ pass = true) ∨
          (first.csi = CSI_ERROR ∧ trimS first.raw = "FAIL" ∧ pass = false))
    (hdur : second.csi = "") (key : String)
    (hex : extract_key_after_crate_name rest2 = some key) :
    as_test_result ⟨first :: second :: rest2⟩ = some (key, pass) := by
  rcases hp with ⟨hc, ht, hpass⟩ | ⟨hc, ht, hpass⟩ <;> subst hpass
  · simp only [as_test_result, if_pos (And.intro hc ht), if_pos hdur, hex]
  · have hA : ¬(first.csi = CSI_PASS ∧ trimS first.raw = "PASS") :=
      fun h => absurd (h.2.symm.trans ht) (by decide)
    simp only [as_test_result, if_neg hA, if_pos (And.intro hc ht),
      if_pos hdur, hex]

/-- C2: the test-result classifier matches exactly when the first run's
(style tag, trimmed text) pair is `(CSI_PASS, "PASS")` or
`(CSI_ERROR, "FAIL")`, a second run exists with an empty style tag (the
duration, not otherwise validated), and key extraction after it succeeds;
on a match the line is classified `kind=TestResult` with the extracted key
and outcome `true` for PASS, `false` for FAIL; otherwise it declines. -/
theorem C2_test_result_characterization :
    (∀ (f : CommandOutputLine → LineAnalysis) (first second : TString)
        (rest : List TString) (key : String) (pass : Bool),
      ((first.csi = CSI_PASS ∧ trimS first.raw = "PASS" ∧ pass = true) ∨
       (first.csi = CSI_ERROR ∧ trimS first.raw = "FAIL" ∧ pass = false)) →
      second.csi = "" →
      extract_key_after_crate_name rest = some key →
      analyze_line f ⟨⟨first :: second :: rest⟩⟩ =
        LineAnalysis.test_result key pass)
    ∧ (∀ l : TLine, as_test_result l ≠ none →
      ∃ first second rest key,
        l.strings = first :: second :: rest
        ∧ ((first.csi = CSI_PASS ∧ trimS first.raw = "PASS"
              ∧ as_test_result l = some (key, true)) ∨
           (first.csi = CSI_ERROR ∧ trimS first.raw = "FAIL"
              ∧ as_test_result l = some (key, false)))
        ∧ second.csi = "" ∧ extract_key_after_crate_name rest = some key) := by
  constructor
  · intro f first second rest key pass hp hdur hex
    have hraw : first.raw ≠ "--- " := by
      rcases hp with ⟨_, ht, _⟩ | ⟨_, ht, _⟩ <;>
        exact fun hc => absurd (hc ▸ ht) (by decide)
    have htk := title_key_decline_first first (second :: rest) hraw
    have hres := as_test_result_match first second rest pass hp hdur key hex
    simp [analyze_line, htk, hres, LineAnalysis.test_result]
  · intro l h
    obtain ⟨ss⟩ := l
    cases ss with
    | nil => exact absurd rfl h
    | cons first rest =>
      by_cases hA : first.csi = CSI_PASS ∧ trimS first.raw = "PASS"
      · cases rest with
        | nil => exact absurd (by simp only [as_test_result, if_pos hA]) h
        | cons second rest2 =>
          by_cases hdur : second.csi = ""
          · cases hex : extract_key_after_crate_name rest2 with
            | none =>
              exact absurd
                (by simp only [as_test_result, if_pos hA, if_pos hdur, hex]) h
            | some key =>
              exact ⟨first, second, rest2, key, rfl,
                Or.inl ⟨hA.1, hA.2,
                  as_test_result_match first second rest2 true
                    (Or.inl ⟨hA.1, hA.2, rfl⟩) hdur key hex⟩, hdur, hex⟩
          · exact absurd
              (by simp only [as_test_result, if_pos hA, if_neg hdur]) h
      · by_cases hB : first.csi = CSI_ERROR ∧ trimS first.raw = "FAIL"
        · cases rest with
          | nil =>
            exact absurd (by simp only [as_test_result, if_neg hA, if_pos hB]) h
          | cons second rest2 =>
            by_cases hdur : second.csi = ""
            · cases hex : extract_key_after_crate_name rest2 with
              | none =>
                exact absurd (by
                  simp only [as_test_result, if_neg hA, if_pos hB,
                    if_pos hdur, hex]) h
              | some key =>
                exact ⟨first, second, rest2, key, rfl,
                  Or.inr ⟨hB.1, hB.2,
                    as_test_result_match first second rest2 false
                      (Or.inr ⟨hB.1, hB.2, rfl⟩) hdur key hex⟩, hdur, hex⟩
            · exact absurd (by
                simp only [as_test_result, if_neg hA, if_pos hB, if_neg hdur]) h
        · exact absurd (as_test_result_decline_first first rest hA hB) h

theorem C2_witness :
    analyze_line stdFallback
      ⟨⟨[⟨CSI_PASS, "        PASS"⟩, ⟨"", " [   0.003s] "⟩,
         ⟨CSI_TITLE, "bacon"⟩, ⟨"", " "⟩, ⟨"\x1b[36m", "t"⟩,
         ⟨"\x1b[36m", "::"⟩, ⟨"\x1b[34;1m", "c"⟩]⟩⟩ =
      LineAnalysis.test_result "t::c" true :=
  C2_test_result_characterization.1 stdFallback ⟨CSI_PASS, "        PASS"⟩
    ⟨"", " [   0.003s] "⟩
    [⟨CSI_TITLE, "bacon"⟩, ⟨"", " "⟩, ⟨"\x1b[36m", "t"⟩, ⟨"\x1b[36m", "::"⟩,
     ⟨"\x1b[34;1m", "c"⟩]
    "t::c" true (Or.inl ⟨rfl, by decide, rfl⟩) rfl (by decide)

/-- C7: every line whose first run is error-styled with trimmed text
exactly `"Canceling"` is classified `kind=SectionEnd` (no key, no
outcome), whatever runs follow. -/
theorem C7_canceling_classified (f : CommandOutputLine → LineAnalysis)
    (first : TString) (rest : List TString)
    (h1 : first.csi = CSI_ERROR) (h2 : trimS first.raw = "Canceling") :
    analyze_line f ⟨⟨first :: rest⟩⟩ = LineAnalysis.of_type .SectionEnd := by
  have hraw : first.raw ≠ "--- " := fun hc => absurd (hc ▸ h2) (by decide)
  have htk := title_key_decline_first first rest hraw
  have hres := as_test_result_decline_first first rest
    (fun h => absurd (h.2.symm.trans h2) (by decide))
    (fun h => absurd (h.2.symm.trans h2) (by decide))
  have hcanc : is_canceling ⟨first :: rest⟩ = true := by
    simp [is_canceling, h1, h2]
  simp [analyze_line, htk, hres, hcanc]

theorem C7_witness :
    analyze_line stdFallback
      ⟨⟨[⟨CSI_ERROR, "   Canceling"⟩, ⟨"", " due to "⟩,
         ⟨CSI_ERROR, "test failure"⟩]⟩⟩ =
      LineAnalysis.of_type .SectionEnd :=
  C7_canceling_classified stdFallback ⟨CSI_ERROR, "   Canceling"⟩
    [⟨"", " due to "⟩, ⟨CSI_ERROR, "test failure"⟩] rfl (by decide)

/-- C8: every two-run line whose first run is error-styled with trimmed
text `"error"` and whose second run's trimmed text is `": test run failed"`
is classified `kind=Garbage`; and the run-failure classifier never matches
a line whose run count differs from two. -/
theorem C8_error_run_failed :
    (∀ (f : CommandOutputLine → LineAnalysis) (first second : TString),
      first.csi = CSI_ERROR → trimS first.raw = "error" →
      trimS second.raw = ": test run failed" →
      analyze_line f ⟨⟨[first, second]⟩⟩ = LineAnalysis.of_type .Garbage)
    ∧ (∀ l : TLine, is_error_test_run_failed l = true → l.strings.length = 2) := by
  constructor
  · intro f first second h1 h2 h3
    have hraw : first.raw ≠ "--- " := fun hc => absurd (hc ▸ h2) (by decide)
    have htk := title_key_decline_first first [second] hraw
    have hres := as_test_result_decline_first first [second]
      (fun h => absurd (h.2.symm.trans h2) (by decide))
      (fun h => absurd (h.2.symm.trans h2) (by decide))
    have hcanc : is_canceling ⟨[first, second]⟩ = false := by
      simp [is_canceling, h2]
    have herr : is_error_test_run_failed ⟨[first, second]⟩ = true := by
      simp [is_error_test_run_failed, h1, h2, h3]
    simp [analyze_line, htk, hres, hcanc, herr]
  · intro l h
    obtain ⟨ss⟩ := l
    cases ss with
    | nil => simp [is_error_test_run_failed] at h
    | cons a t =>
      cases t with
      | nil => simp [is_error_test_run_failed] at h
      | cons b t2 =>
        cases t2 with
        | nil => rfl
        | cons c t3 => simp [is_error_test_run_failed] at h

theorem C8_witness :
    analyze_line stdFallback
      ⟨⟨[⟨CSI_ERROR, "error"⟩, ⟨"", ": test run failed"⟩]⟩⟩ =
      LineAnalysis.of_type .Garbage :=
  C8_error_run_failed.1 stdFallback ⟨CSI_ERROR, "error"⟩
    ⟨"", ": test run failed"⟩ rfl (by decide) (by decide)

/-- Key extraction always fails on a fully unstyled run list: every run is
skipped and the accumulated key stays empty. -/
lemma extract_key_all_unstyled (ss : List TString)
    (h : ∀ s ∈ ss, s.csi = "") : extract_key_after_crate_name ss = none := by
  unfold extract_key_after_crate_name
  rw [keyLoop_all_unstyled (ss.drop 2)
    (fun s hs => h s (List.mem_of_mem_drop hs)) ""]
  rfl

/-- The title classifier declines every fully unstyled line. -/
lemma title_key_unstyled (l : TLine) (h : ∀ s ∈ l.strings, s.csi = "") :
    title_key l = none := by
  obtain ⟨ss⟩ := l
  cases ss with
  | nil => rfl
  | cons a t =>
    cases t with
    | nil => rfl
    | cons b r =>
      have he : extract_key_after_crate_name r = none :=
        extract_key_all_unstyled r (fun s hs => h s (by simp [hs]))
      simp only [title_key]
      split
      · rfl
      · split
        · rfl
        · exact he

/-- C9: a line with no styling at all (every run's style tag empty) whose
plain text matches `^running \d+ tests?$` is classified `kind=Garbage`, and
one whose plain text is exactly `"------------"` is classified
`kind=SectionEnd` (the styled shape classifiers all necessarily decline on
unstyled lines); and a line carrying any styling never reaches these two
plain-text patterns. -/
theorem C9_plain_text_patterns :
    (∀ (f : CommandOutputLine → LineAnalysis) (ss : List TString) (c : String),
      TLine.if_unstyled ⟨ss⟩ = some c →
      (runningMatch c = true →
        analyze_line f ⟨⟨ss⟩⟩ = LineAnalysis.of_type .Garbage)
      ∧ (c = "------------" →
        analyze_line f ⟨⟨ss⟩⟩ = LineAnalysis.of_type .SectionEnd))
    ∧ (∀ l : TLine, (∃ s ∈ l.strings, s.csi ≠ "") → l.if_unstyled = none) := by
  constructor
  · intro f ss c hc
    have hall : ∀ s ∈ ss, s.csi = "" := by
      intro s hs
      unfold TLine.if_unstyled at hc
      by_cases hb : ss.all (fun x => decide (x.csi = "")) = true
      · simpa using List.all_eq_true.mp hb s hs
      · rw [if_neg hb] at hc
        cases hc
    have htk : title_key ⟨ss⟩ = none := title_key_unstyled ⟨ss⟩ hall
    have hres : as_test_result ⟨ss⟩ = none := by
      cases ss with
      | nil => rfl
      | cons first rest =>
        have h0 : first.csi = "" := hall first (by simp)
        exact as_test_result_decline_first first rest
          (fun h => absurd (h.1.symm.trans h0).symm (by decide))
          (fun h => absurd (h.1.symm.trans h0).symm (by decide))
    have hcanc : is_canceling ⟨ss⟩ = false := by
      cases ss with
      | nil => rfl
      | cons first rest =>
        have h0 : first.csi = "" := hall first (by simp)
        simp [is_canceling, h0]
        exact fun h => absurd h (by decide)
    have herr : is_error_test_run_failed ⟨ss⟩ = false := by
      cases ss with
      | nil => rfl
      | cons a t =>
        cases t with
        | nil => rfl
        | cons b t2 =>
          cases t2 with
          | nil =>
            have h0 : a.csi = "" := hall a (by simp)
            simp [is_error_test_run_failed, h0]
            exact fun h => absurd h (by decide)
          | cons d t3 => rfl
    constructor
    · intro hrun
      simp [analyze_line, htk, hres, hcanc, herr, hc, hrun]
    · intro hdash
      subst hdash
      have hrun : runningMatch "------------" = false := by decide
      simp [analyze_line, htk, hres, hcanc, herr, hc, hrun]
  · rintro l ⟨s, hs, hcsi⟩
    have hb : ¬(l.strings.all (fun x => decide (x.csi = "")) = true) :=
      fun hb => hcsi (by simpa using List.all_eq_true.mp hb s hs)
    unfold TLine.if_unstyled
    rw [if_neg hb]

theorem C9_witness :
    analyze_line stdFallback ⟨⟨[⟨"", "running 12"⟩, ⟨"", " tests"⟩]⟩⟩ =
      LineAnalysis.of_type .Garbage :=
  (C9_plain_text_patterns.1 stdFallback [⟨"", "running 12"⟩, ⟨"", " tests"⟩]
    "running 12 tests" (by decide)).1 (by decide)

/-- C5: the classifier is total (a Lean function returning a
classification for every line, the zero-run line included), and on every
line where all five tool-specific shape classifiers decline the verdict is
exactly the generic fallback's, the fallback being consulted only through
its value on that very line. -/
theorem C5_fallback_totality (f g : CommandOutputLine → LineAnalysis)
    (l : CommandOutputLine)
    (h1 : title_key l.content = none)
    (h2 : as_test_result l.content = none)
    (h3 : is_canceling l.content = false)
    (h4 : is_error_test_run_failed l.content = false)
    (h5 : ∀ c, l.content.if_unstyled = some c →
      runningMatch c = false ∧ c ≠ "------------") :
    analyze_line f l = f l ∧ (f l = g l → analyze_line f l = analyze_line g l) := by
  have key : ∀ k : CommandOutputLine → LineAnalysis, analyze_line k l = k l := by
    intro k
    cases hu : l.content.if_unstyled with
    | none => simp [analyze_line, h1, h2, h3, h4, hu]
    | some c =>
      obtain ⟨hr, hd⟩ := h5 c hu
      simp [analyze_line, h1, h2, h3, h4, hu, hr, hd]
  exact ⟨key f, fun hfg => by rw [key f, key g, hfg]⟩

theorem C5_witness :
    analyze_line stdFallback ⟨⟨[]⟩⟩ = stdFallback ⟨⟨[]⟩⟩ :=
  (C5_fallback_totality stdFallback stdFallback ⟨⟨[]⟩⟩ rfl rfl rfl rfl
    (fun c hc => by
      have hc' : some "" = some c := hc
      injection hc' with h
      subst h
      exact ⟨by decide, by decide⟩)).1

/-- The spec's LineClassification invariant: a key is present iff the kind
is FailureTitle or TestResult, an outcome is present iff the kind is
TestResult, and a present key is never the empty string. -/
def ClassificationInv (r : LineAnalysis) : Prop :=
  (r.key ≠ none ↔ (r.kind = .FailureTitle ∨ r.kind = .TestResult))
  ∧ (r.outcome ≠ none ↔ r.kind = .TestResult)
  ∧ (∀ k, r.key = some k → k ≠ "")

/-- A key produced by the title classifier is never empty. -/
lemma title_key_some_ne_empty (l : TLine) (k : String)
    (h : title_key l = some k) : k ≠ "" := by
  obtain ⟨ss⟩ := l
  cases ss with
  | nil => cases h
  | cons a t =>
    cases t with
    | nil => cases h
    | cons b r =>
      simp only [title_key] at h
      split at h
      · cases h
      · split at h
        · cases h
        · exact extract_key_some_ne_empty r k h

/-- A key produced by the test-result classifier is never empty. -/
lemma as_test_result_some_ne_empty (l : TLine) (k : String) (p : Bool)
    (h : as_test_result l = some (k, p)) : k ≠ "" := by
  obtain ⟨ss⟩ := l
  cases ss with
  | nil => cases h
  | cons first rest =>
    by_cases hA : first.csi = CSI_PASS ∧ trimS first.raw = "PASS"
    · cases rest with
      | nil =>
        simp only [as_test_result, if_pos hA] at h
        cases h
      | cons second rest2 =>
        by_cases hdur : second.csi = ""
        · cases hex : extract_key_after_crate_name rest2 with
          | none =>
            simp only [as_test_result, if_pos hA, if_pos hdur, hex] at h
            cases h
          | some key =>
            rw [as_test_result_match first second rest2 true
              (Or.inl ⟨hA.1, hA.2, rfl⟩) hdur key hex] at h
            injection h with h'
            injection h' with hk hp
            subst hk
            exact extract_key_some_ne_empty rest2 key hex
        · simp only [as_test_result, if_pos hA, if_neg hdur] at h
          cases h
    · by_cases hB : first.csi = CSI_ERROR ∧ trimS first.raw = "FAIL"
      · cases rest with
        | nil =>
          simp only [as_test_result, if_neg hA, if_pos hB] at h
          cases h
        | cons second rest2 =>
          by_cases hdur : second.csi = ""
          · cases hex : extract_key_after_crate_name rest2 with
            | none =>
              simp only [as_test_result, if_neg hA, if_pos hB, if_pos hdur,
                hex] at h
              cases h
            | some key =>
              rw [as_test_result_match first second rest2 false
                (Or.inr ⟨hB.1, hB.2, rfl⟩) hdur key hex] at h
              injection h with h'
              injection h' with hk hp
              subst hk
              exact extract_key_some_ne_empty rest2 key hex
          · simp only [as_test_result, if_neg hA, if_pos hB, if_neg hdur] at h
            cases h
      · rw [as_test_result_decline_first first rest hA hB] at h
        cases h

lemma stdFallback_inv : ∀ l, ClassificationInv (stdFallback l) := by
  intro l
  refine ⟨by simp [stdFallback, LineAnalysis.of_type],
    by simp [stdFallback, LineAnalysis.of_type], ?_⟩
  intro k hk
  simp [stdFallback, LineAnalysis.of_type] at hk

/-- C6: whenever the generic fallback's classifications satisfy the
key/outcome presence invariant, so does every classification produced by
`analyze_line`: a key is present iff the kind is FailureTitle or
TestResult, an outcome is present iff the kind is TestResult, and a
present key is non-empty. -/
lemma of_type_inv (t : LineKind) (h : t ≠ .FailureTitle ∧ t ≠ .TestResult) :
    ClassificationInv (LineAnalysis.of_type t) :=
  ⟨by simp [LineAnalysis.of_type, h.1, h.2],
   by simp [LineAnalysis.of_type, h.2],
   fun k hk => by simp [LineAnalysis.of_type] at hk⟩

theorem C6_classification_invariant (f : CommandOutputLine → LineAnalysis)
    (hf : ∀ l, ClassificationInv (f l)) (l : CommandOutputLine) :
    ClassificationInv (analyze_line f l) := by
  cases htk : title_key l.content with
  | some key =>
    have he : analyze_line f l = LineAnalysis.title_key key := by
      simp [analyze_line, htk]
    rw [he]
    refine ⟨by simp [LineAnalysis.title_key], by simp [LineAnalysis.title_key], ?_⟩
    intro k hk
    simp only [LineAnalysis.title_key, Option.some.injEq] at hk
    subst hk
    exact title_key_some_ne_empty l.content key htk
  | none =>
    cases hres : as_test_result l.content with
    | some kp =>
      obtain ⟨key, pass⟩ := kp
      have he : analyze_line f l = LineAnalysis.test_result key pass := by
        simp [analyze_line, htk, hres]
      rw [he]
      refine ⟨by simp [LineAnalysis.test_result],
        by simp [LineAnalysis.test_result], ?_⟩
      intro k hk
      simp only [LineAnalysis.test_result, Option.some.injEq] at hk
      subst hk
      exact as_test_result_some_ne_empty l.content key pass hres
    | none =>
      cases hcanc : is_canceling l.content with
      | true =>
        have he : analyze_line f l = LineAnalysis.of_type .SectionEnd := by
          simp [analyze_line, htk, hres, hcanc]
        rw [he]
        exact of_type_inv _ (by simp)
      | false =>
        cases herr : is_error_test_run_failed l.content with
        | true =>
          have he : analyze_line f l = LineAnalysis.of_type .Garbage := by
            simp [analyze_line, htk, hres, hcanc, herr]
          rw [he]
          exact of_type_inv _ (by simp)
        | false =>
          cases hu : l.content.if_unstyled with
          | none =>
            have he : analyze_line f l = f l := by
              simp [analyze_line, htk, hres, hcanc, herr, hu]
            rw [he]
            exact hf l
          | some c =>
            cases hrun : runningMatch c with
            | true =>
              have he : analyze_line f l = LineAnalysis.of_type .Garbage := by
                simp [analyze_line, htk, hres, hcanc, herr, hu, hrun]
              rw [he]
              exact of_type_inv _ (by simp)
            | false =>
              by_cases hdash : c = "------------"
              · subst hdash
                have he : analyze_line f l = LineAnalysis.of_type .SectionEnd := by
                  simp [analyze_line, htk, hres, hcanc, herr, hu, hrun]
                rw [he]
                exact of_type_inv _ (by simp)
              · have he : analyze_line f l = f l := by
                  simp [analyze_line, htk, hres, hcanc, herr, hu, hrun, hdash]
                rw [he]
                exact hf l

theorem C6_witness :
    ClassificationInv (analyze_line stdFallback
      ⟨⟨[⟨CSI_PASS, " PASS"⟩, ⟨"", " [0.1s] "⟩, ⟨CSI_TITLE, "bacon"⟩,
         ⟨"", " "⟩, ⟨"\x1b[36m", "t::c"⟩]⟩⟩) :=
  C6_classification_invariant stdFallback stdFallback_inv
    ⟨⟨[⟨CSI_PASS, " PASS"⟩, ⟨"", " [0.1s] "⟩, ⟨CSI_TITLE, "bacon"⟩,
       ⟨"", " "⟩, ⟨"\x1b[36m", "t::c"⟩]⟩⟩

end Nextest
